import Mathlib

/-!
Verification of the asterisk-mqtt core: a shallow embedding of the AMI line
parser, the event accessor, the hangup-cause table, and the call-lifecycle
correlator, together with theorems settling the specification claims.

Modelling conventions:
* Go `time.Time` values are modelled as integers (in seconds); the Go zero
  time (`IsZero`) is modelled as the integer 0.  Durations, `float64` seconds
  in Go, are exact integers here because every timestamp in scope is an
  integer number of seconds (`time.Duration.Seconds` is exact and monotone on
  that grid).
* The injected clock (`Clock func() time.Time`) is modelled as a function
  from the index of the clock read to a time, together with a read counter
  (`ticks`) carried in the correlator state; the counter advances exactly
  where the Go code calls `c.clock()`.
* The Go `map[string]*callState` is modelled as `String → Option callState`;
  in-place mutation through the pointer becomes a pointwise functional update.
-/

namespace AsteriskMqtt

/-- One `Key: Value` pair of an AMI event (source: `header` in internal/ami). -/
structure Header where
  key : String
  value : String
deriving DecidableEq, BEq

/-- A parsed AMI event: an ordered list of key-value pairs, duplicates
permitted (source: `ami.Event`). -/
structure Event where
  headers : List Header
deriving DecidableEq

/-- Source: `Event.Get` — the value of the first pair with the given key, or
the empty string if absent. -/
def Event.get (e : Event) (key : String) : String :=
  match e.headers.find? (fun h => h.key == key) with
  | some h => h.value
  | none => ""

/-- Source: `Event.Type` — the value of the `Event` header. -/
def Event.type (e : Event) : String :=
  e.get "Event"

/-- Source: `Event.IsResponse` — true iff the `Response` header is non-empty. -/
def Event.isResponse (e : Event) : Bool :=
  e.get "Response" != ""

/-- Largest value of Go's `uint64`. -/
def maxUint64 : Nat := 2 ^ 64 - 1

/-- The overflow cutoff used by Go's `strconv.ParseUint` for base 10 and bit
size 64: the smallest value `n` such that `n * 10` overflows `uint64`. -/
def cutoff10 : Nat := maxUint64 / 10 + 1

/-- Outcome of the `strconv.ParseUint` digit loop: a value, a syntax error,
or a range error (in Go the two errors carry `0` resp. the clamped maximum,
which the callers reproduce). -/
inductive PUResult where
  | ok (n : Nat)
  | synErr
  | rangeErr
deriving DecidableEq

/-- The digit test used by Go `strconv` for base 10. -/
def isDigitChar (c : Char) : Prop := '0' ≤ c ∧ c ≤ '9'

instance (c : Char) : Decidable (isDigitChar c) := by
  unfold isDigitChar; infer_instance

/-- Source: the accumulation loop of Go `strconv.ParseUint(s, 10, 64)`.  A
non-digit character aborts with a syntax error; the loop returns a range
error as soon as the accumulated value would exceed `uint64`, without looking
at the remaining characters. -/
def parseUintLoop : Nat → List Char → PUResult
  | n, [] => .ok n
  | n, c :: cs =>
    if isDigitChar c then
      if cutoff10 ≤ n then .rangeErr
      else
        let n1 := n * 10 + (c.toNat - 48)
        if maxUint64 < n1 then .rangeErr
        else parseUintLoop n1 cs
    else .synErr

/-- Largest value of Go's `int64` (the platform `int` on 64-bit builds). -/
def int64Max : Int := 2 ^ 63 - 1

/-- Smallest value of Go's `int64`. -/
def int64Min : Int := -(2 ^ 63)

/-- Source: the tail of Go `strconv.ParseInt(s, 10, 0)` after the sign has
been stripped, with the error discarded as `Event.GetInt` does: an empty
digit string or a syntax error yields 0; a range error yields the saturated
`int64` bound of the requested sign. -/
def goAtoiMag (neg : Bool) (digits : List Char) : Int :=
  match digits with
  | [] => 0
  | _ :: _ =>
    match parseUintLoop 0 digits with
    | .synErr => 0
    | .rangeErr => if neg then int64Min else int64Max
    | .ok n =>
      if neg then (if 2 ^ 63 < n then int64Min else -(n : Int))
      else (if 2 ^ 63 ≤ n then int64Max else (n : Int))

/-- Source: Go `strconv.Atoi` with the error ignored, i.e. the value
component of `strconv.ParseInt(s, 10, 0)` on a 64-bit platform (the Atoi
fast path agrees with this on every input it handles). -/
def goAtoi (s : String) : Int :=
  match s.data with
  | [] => 0
  | c :: rest =>
    if c = '-' then goAtoiMag true rest
    else if c = '+' then goAtoiMag false rest
    else goAtoiMag false (c :: rest)

/-- Source: `Event.GetInt` — `strconv.Atoi` of the looked-up value, with the
error discarded. -/
def Event.getInt (e : Event) (key : String) : Int :=
  goAtoi (e.get key)

/-- Source: the `HangupCause` map of internal/correlator/state.go, reproduced
entry for entry. -/
def HangupCause (code : Int) : Option (String × String) :=
  if code = 0 then some ("unknown", "Unknown or no cause provided")
  else if code = 16 then some ("normal_clearing", "The call was hung up normally by one of the parties")
  else if code = 17 then some ("user_busy", "The destination was busy")
  else if code = 18 then some ("no_answer", "The destination did not answer")
  else if code = 19 then some ("no_answer", "The destination did not answer within the timeout")
  else if code = 21 then some ("call_rejected", "The call was rejected by the destination")
  else if code = 31 then some ("normal_unspecified", "Normal call clearing, unspecified cause")
  else if code = 34 then some ("congestion", "All circuits are busy or no circuit is available")
  else if code = 127 then some ("interworking", "An interworking error occurred")
  else none

/-- The Cause Translator of spec section 4.3: the `HangupCause` table with
absent codes resolving to `unknown` and its generic description, exactly the
default that `handleHangup` applies around its map lookup. -/
def causeTranslate (code : Int) : String × String :=
  match HangupCause code with
  | some info => info
  | none => ("unknown", "Unknown or no cause provided")

/-- Source: `Endpoint` of internal/correlator/state.go (`from`/`to` objects;
`Name` is `""` when unknown, matching the Go zero value). -/
structure Endpoint where
  extension : String
  name : String
deriving DecidableEq

/-- Source: the `CallState` string enum (`StateRinging`, `StateAnswered`,
`StateHungUp`). -/
inductive CallSt where
  | ringing
  | answered
  | hungup
deriving DecidableEq, BEq

/-- Source: `CallStateChange` of internal/correlator/state.go.  Fields that a
given emission leaves at the Go zero value are 0 resp. `""` here. -/
structure CallStateChange where
  state : CallSt
  callID : String
  fromE : Endpoint
  toE : Endpoint
  timestamp : Int
  ringDuration : Int
  cause : String
  causeDescription : String
  causeCode : Int
  talkDuration : Int
  totalDuration : Int
deriving DecidableEq, BEq

/-- Source: `callState` of the correlator — the in-flight record of one call
(the spec's CallRecord).  `ringTime`/`answerTime` are 0 while unset, matching
the Go zero time. -/
structure callState where
  linkedID : String
  fromE : Endpoint
  toE : Endpoint
  ringTime : Int
  answerTime : Int
  answered : Bool
  rung : Bool
  cancelled : Bool
deriving DecidableEq

/-- The mutable part of a `Correlator`: the active-call mapping keyed by
Linkedid, plus the number of clock reads performed so far (the clock function
itself is passed separately, mirroring the immutable `clock` field). -/
structure CorrState where
  calls : String → Option callState
  ticks : Nat

/-- Source: `New()` — an empty call map; no clock reads have happened. -/
def freshState : CorrState :=
  { calls := fun _ => none, ticks := 0 }

/-- Source: `handleNewchannel` — open a CallRecord for an untracked Linkedid,
capturing caller number/name and destination extension; emit nothing. -/
def handleNewchannel (s : CorrState) (evt : Event) (linkedID : String) :
    CorrState × List CallStateChange :=
  match s.calls linkedID with
  | some _ => (s, [])
  | none =>
    let cs : callState :=
      { linkedID := linkedID
        fromE := { extension := evt.get "CallerIDNum", name := evt.get "CallerIDName" }
        toE := { extension := evt.get "Exten", name := "" }
        ringTime := 0
        answerTime := 0
        answered := false
        rung := false
        cancelled := false }
    ({ s with calls := fun k => if k = linkedID then some cs else s.calls k }, [])

/-- Source: `handleDialBegin` — attach `DestCallerIDName` to the `to`
endpoint when it has no name yet; emit nothing. -/
def handleDialBegin (s : CorrState) (evt : Event) (linkedID : String) :
    CorrState × List CallStateChange :=
  match s.calls linkedID with
  | none => (s, [])
  | some cs =>
    if cs.toE.name = "" then
      let name := evt.get "DestCallerIDName"
      if name ≠ "" then
        let cs1 := { cs with toE := { cs.toE with name := name } }
        ({ s with calls := fun k => if k = linkedID then some cs1 else s.calls k }, [])
      else (s, [])
    else (s, [])

/-- Source: `handleNewstate` — first `Ringing` sets the ring flag and
timestamp and emits Ringing; first `Up` sets the answer flag and timestamp
and emits Answered with `ring_duration`; duplicates and other state
descriptions are no-ops.  The Go code reads the clock before inspecting the
state description, so the read counter advances in every branch below. -/
def handleNewstate (clk : Nat → Int) (s : CorrState) (evt : Event) (linkedID : String) :
    CorrState × List CallStateChange :=
  match s.calls linkedID with
  | none => (s, [])
  | some cs =>
    let stateDesc := evt.get "ChannelStateDesc"
    let now := clk s.ticks
    let s1 : CorrState := { s with ticks := s.ticks + 1 }
    if stateDesc = "Ringing" then
      if cs.rung then (s1, [])
      else
        let cs1 := { cs with rung := true, ringTime := now }
        ({ s1 with calls := fun k => if k = linkedID then some cs1 else s1.calls k },
         [{ state := .ringing, callID := linkedID, fromE := cs.fromE, toE := cs.toE,
            timestamp := now, ringDuration := 0, cause := "", causeDescription := "",
            causeCode := 0, talkDuration := 0, totalDuration := 0 }])
    else if stateDesc = "Up" then
      if cs.answered then (s1, [])
      else
        let cs1 := { cs with answered := true, answerTime := now }
        let ringDur : Int := if cs.ringTime ≠ 0 then now - cs.ringTime else 0
        ({ s1 with calls := fun k => if k = linkedID then some cs1 else s1.calls k },
         [{ state := .answered, callID := linkedID, fromE := cs.fromE, toE := cs.toE,
            timestamp := now, ringDuration := ringDur, cause := "", causeDescription := "",
            causeCode := 0, talkDuration := 0, totalDuration := 0 }])
    else (s1, [])

/-- Source: `handleDialEnd` — `DialStatus=CANCEL` sets the cancelled flag;
emit nothing. -/
def handleDialEnd (s : CorrState) (evt : Event) (linkedID : String) :
    CorrState × List CallStateChange :=
  match s.calls linkedID with
  | none => (s, [])
  | some cs =>
    if evt.get "DialStatus" = "CANCEL" then
      ({ s with calls := fun k => if k = linkedID then some { cs with cancelled := true } else s.calls k }, [])
    else (s, [])

/-- Source: `handleHangup` — ignore unknown calls and secondary legs
(`Uniqueid` differing from the Linkedid); on the primary leg resolve the
cause (cancelled-and-unanswered overrides the table lookup by name only),
compute talk/total durations, emit HungUp, and drop the record. -/
def handleHangup (clk : Nat → Int) (s : CorrState) (evt : Event) (linkedID : String) :
    CorrState × List CallStateChange :=
  match s.calls linkedID with
  | none => (s, [])
  | some cs =>
    if evt.get "Uniqueid" ≠ linkedID then (s, [])
    else
      let now := clk s.ticks
      let s1 : CorrState := { s with ticks := s.ticks + 1 }
      let causeCode := evt.getInt "Cause"
      let cinfo : String × String :=
        if cs.cancelled ∧ cs.answered = false then
          ("cancelled", "The call was cancelled by the caller before being answered")
        else
          match HangupCause causeCode with
          | some info => info
          | none => ("unknown", "Unknown or no cause provided")
      let talkDur : Int := if cs.answered ∧ cs.answerTime ≠ 0 then now - cs.answerTime else 0
      let totalDur : Int := if cs.ringTime ≠ 0 then now - cs.ringTime else 0
      ({ s1 with calls := fun k => if k = linkedID then none else s1.calls k },
       [{ state := .hungup, callID := linkedID, fromE := cs.fromE, toE := cs.toE,
          timestamp := now, ringDuration := 0, cause := cinfo.1,
          causeDescription := cinfo.2, causeCode := causeCode,
          talkDuration := talkDur, totalDuration := totalDur }])

/-- Source: `Correlator.Process` — drop acknowledgements and records without
a Linkedid, then dispatch on the event type with an ignore-by-default arm. -/
def Process (clk : Nat → Int) (s : CorrState) (evt : Event) :
    CorrState × List CallStateChange :=
  if evt.isResponse then (s, [])
  else
    let linkedID := evt.get "Linkedid"
    if linkedID = "" then (s, [])
    else if evt.type = "Newchannel" then handleNewchannel s evt linkedID
    else if evt.type = "DialBegin" then handleDialBegin s evt linkedID
    else if evt.type = "Newstate" then handleNewstate clk s evt linkedID
    else if evt.type = "DialEnd" then handleDialEnd s evt linkedID
    else if evt.type = "Hangup" then handleHangup clk s evt linkedID
    else (s, [])

/-- Feeding a list of events through one correlator in arrival order,
concatenating the emitted changes (as the surrounding bridge loop does). -/
def run (clk : Nat → Int) : CorrState → List Event → CorrState × List CallStateChange
  | s, [] => (s, [])
  | s, e :: es =>
    let r1 := Process clk s e
    let r2 := run clk r1.1 es
    (r2.1, r1.2 ++ r2.2)

/-! Line Protocol Reader (source: `Parser` in internal/ami).  The byte stream
is modelled after `bufio.Scanner` splitting: a list of line contents without
their terminating line breaks.  `Parser.Next` additionally strips every
trailing carriage return, treats a blank line as the record terminator, and
handles separator-less lines; `ParseAll` drains the stream and flushes a
partially-built record at end of stream. -/

/-- Strip every trailing carriage return, as `strings.TrimRight(line, "\x0d")`
does (the scanner has already removed the line break). -/
def trimCR (s : String) : String :=
  ⟨(s.data.reverse.dropWhile (fun c => c = '\r')).reverse⟩

/-- Split a line at the first occurrence of the two-character separator
`": "`, as `strings.Index(line, ": ")` followed by the two slicings does;
`none` when the separator does not occur. -/
def splitSep : List Char → Option (List Char × List Char)
  | ':' :: ' ' :: rest => some ([], rest)
  | c :: cs =>
    match splitSep cs with
    | some (k, v) => some (c :: k, v)
    | none => none
  | [] => none

/-- Source: the scan loop of `Parser.Next` iterated by `ParseAll`, with `acc`
the headers collected for the record in progress.  A blank line emits the
pending record (if any); a line without the separator is skipped while no
header has been collected and otherwise kept as an empty-key pair; end of
stream flushes a pending record. -/
def parseFrom (acc : List Header) : List String → List (List Header)
  | [] => if acc.isEmpty then [] else [acc]
  | line :: rest =>
    let l := trimCR line
    if l = "" then
      if acc.isEmpty then parseFrom [] rest
      else acc :: parseFrom [] rest
    else
      match splitSep l.data with
      | none =>
        if acc.isEmpty then parseFrom [] rest
        else parseFrom (acc ++ [{ key := "", value := l }]) rest
      | some (k, v) => parseFrom (acc ++ [{ key := String.mk k, value := String.mk v }]) rest

/-! Helper observations used by the claims. -/

/-- Number of emitted changes with the given lifecycle state and call id. -/
def countState (st : CallSt) (L : String) (out : List CallStateChange) : Nat :=
  out.countP (fun c => decide (c.state = st ∧ c.callID = L))

/-- One if a Ringing change may still be emitted for this call id from this
state without an intervening finalization; zero once the live record has its
ring flag set. -/
def ringPotential (s : CorrState) (L : String) : Nat :=
  match s.calls L with
  | some cs => if cs.rung then 0 else 1
  | none => 1

/-- Analogue of `ringPotential` for the answer flag. -/
def answerPotential (s : CorrState) (L : String) : Nat :=
  match s.calls L with
  | some cs => if cs.answered then 0 else 1
  | none => 1

/-- One while a record for this call id is live (a HungUp change needs a live
record), zero otherwise. -/
def hangPotential (s : CorrState) (L : String) : Nat :=
  match s.calls L with
  | some _ => 1
  | none => 0

/-- An event that `Process` can turn into a new CallRecord for call id `L`:
a non-acknowledgement `Newchannel` notification whose Linkedid is `L`. -/
def isCreationFor (L : String) (evt : Event) : Bool :=
  !evt.isResponse && (evt.get "Linkedid" == L) && (L != "") && (evt.type == "Newchannel")

/-- The record for this call id has its answered flag unset (or is absent). -/
def answeredFlagClear (s : CorrState) (L : String) : Prop :=
  ∀ cs, s.calls L = some cs → cs.answered = false

/-- A `Newchannel` notification that will open a CallRecord in state `s`:
the Linkedid is non-empty and currently untracked. -/
def isCreating (s : CorrState) (evt : Event) : Bool :=
  !evt.isResponse && (evt.get "Linkedid" != "") && (evt.type == "Newchannel")
    && (s.calls (evt.get "Linkedid")).isNone

/-- A primary-leg `Hangup` notification in state `s`: the Linkedid is
non-empty and tracked, and the per-leg `Uniqueid` equals the Linkedid. -/
def isPrimaryHangup (s : CorrState) (evt : Event) : Bool :=
  !evt.isResponse && (evt.get "Linkedid" != "") && (evt.type == "Hangup")
    && (s.calls (evt.get "Linkedid")).isSome
    && (evt.get "Uniqueid" == evt.get "Linkedid")

/-! Concrete event records used by the scenario theorems. -/

/-- Scenario A creation: `Newchannel` from extension 1986 named Martin to
extension 21, call id `A.1`. -/
def evA1 : Event :=
  ⟨[⟨"Event", "Newchannel"⟩, ⟨"CallerIDNum", "1986"⟩, ⟨"CallerIDName", "Martin"⟩,
    ⟨"Exten", "21"⟩, ⟨"Uniqueid", "A.1"⟩, ⟨"Linkedid", "A.1"⟩]⟩

/-- Scenario A ringing-state notification. -/
def evA2 : Event :=
  ⟨[⟨"Event", "Newstate"⟩, ⟨"ChannelStateDesc", "Ringing"⟩, ⟨"Uniqueid", "A.2"⟩,
    ⟨"Linkedid", "A.1"⟩]⟩

/-- Scenario A answer-state notification. -/
def evA3 : Event :=
  ⟨[⟨"Event", "Newstate"⟩, ⟨"ChannelStateDesc", "Up"⟩, ⟨"Uniqueid", "A.2"⟩,
    ⟨"Linkedid", "A.1"⟩]⟩

/-- Scenario A primary-leg termination with cause code 16. -/
def evA4 : Event :=
  ⟨[⟨"Event", "Hangup"⟩, ⟨"Cause", "16"⟩, ⟨"Uniqueid", "A.1"⟩, ⟨"Linkedid", "A.1"⟩]⟩

/-- Scenario A clock: the three reads (ringing, answer, termination) happen
at `t0`, `t0 + 5` and `t0 + 35` seconds. -/
def clkA (t0 : Int) : Nat → Int :=
  fun k => if k = 0 then t0 else if k = 1 then t0 + 5 else t0 + 35

/-- Whether the record carries a pair with the given key (first-match lookup
succeeds). -/
def hasKey (e : Event) (key : String) : Bool :=
  e.headers.any (fun h => h.key == key)

/-- Sign handling of `strconv.ParseInt`: strip one leading `+` or `-`;
`none` when the string is empty or consists of a sign alone (both syntax
errors). -/
def signSplit (s : String) : Option (Bool × List Char) :=
  match s.data with
  | [] => none
  | c :: rest =>
    if c = '-' then (if rest = [] then none else some (true, rest))
    else if c = '+' then (if rest = [] then none else some (false, rest))
    else some (false, c :: rest)

/-- Decimal value of a digit list (most significant first) on top of an
already-accumulated value `n`. -/
def digitsVal (n : Nat) (ds : List Char) : Nat :=
  ds.foldl (fun a c => a * 10 + (c.toNat - 48)) n

/-- A string accepted by the Atoi integer syntax: an optional sign followed
by one or more decimal digits. -/
def intSyntaxOK (s : String) : Bool :=
  match signSplit s with
  | none => false
  | some (_, ds) => ds.all (fun c => decide (isDigitChar c))

/-- The mathematical integer denoted by a syntactically valid value. -/
def intValue (s : String) : Int :=
  match signSplit s with
  | none => 0
  | some (neg, ds) => if neg then -(digitsVal 0 ds : Int) else (digitsVal 0 ds : Int)

/-- Saturation of an integer to the `int64` range. -/
def clamp64 (x : Int) : Int :=
  max int64Min (min int64Max x)

/-- Number of creation notifications for call id `L` in an event list. -/
def countCreations (L : String) (es : List Event) : Nat :=
  es.countP (isCreationFor L)

/-- Creation notification for call id `R.1` (used to exercise id reuse). -/
def evRe1 : Event :=
  ⟨[⟨"Event", "Newchannel"⟩, ⟨"CallerIDNum", "1986"⟩, ⟨"Exten", "21"⟩,
    ⟨"Uniqueid", "R.1"⟩, ⟨"Linkedid", "R.1"⟩]⟩

/-- Ringing-state notification for call id `R.1`. -/
def evRe2 : Event :=
  ⟨[⟨"Event", "Newstate"⟩, ⟨"ChannelStateDesc", "Ringing"⟩, ⟨"Uniqueid", "R.2"⟩,
    ⟨"Linkedid", "R.1"⟩]⟩

/-- Primary-leg termination for call id `R.1`. -/
def evRe3 : Event :=
  ⟨[⟨"Event", "Hangup"⟩, ⟨"Cause", "16"⟩, ⟨"Uniqueid", "R.1"⟩, ⟨"Linkedid", "R.1"⟩]⟩

/-- Answer-state notification for call id `R.1` (no prior ringing). -/
def evReUp : Event :=
  ⟨[⟨"Event", "Newstate"⟩, ⟨"ChannelStateDesc", "Up"⟩, ⟨"Uniqueid", "R.2"⟩,
    ⟨"Linkedid", "R.1"⟩]⟩

/-- Placeholder change used as the default of list indexing in concrete
statements. -/
def dummyChange : CallStateChange :=
  { state := .ringing, callID := "", fromE := ⟨"", ""⟩, toE := ⟨"", ""⟩,
    timestamp := 0, ringDuration := 0, cause := "", causeDescription := "",
    causeCode := 0, talkDuration := 0, totalDuration := 0 }

/-- Concrete correlator state for the C2 witness: one tracked call `W.1`,
cancelled while still unanswered. -/
def stateC2w : CorrState :=
  { calls := fun k => if k = "W.1" then
      some { linkedID := "W.1", fromE := ⟨"1986", "Martin"⟩, toE := ⟨"21", ""⟩,
             ringTime := 2, answerTime := 0, answered := false, rung := true,
             cancelled := true }
      else none,
    ticks := 1 }

/-- Concrete primary-leg termination record for the C2 witness. -/
def evC2w : Event :=
  ⟨[⟨"Event", "Hangup"⟩, ⟨"Cause", "127"⟩, ⟨"Uniqueid", "W.1"⟩, ⟨"Linkedid", "W.1"⟩]⟩

end AsteriskMqtt

namespace AsteriskMqtt

/-- C1.  Scenario A — creation(from 1986 "Martin", to 21), ringing at `t0`,
answer at `t0 + 5`, primary-leg termination with cause 16 at `t0 + 35` —
emits exactly three changes in order: Ringing at `t0`; Answered with ring
duration 5 at `t0 + 5`; HungUp with cause `normal_clearing`, code 16, talk
duration 30 and total duration 35 at `t0 + 35`.  The hypothesis `0 < t0`
says `t0` is a genuine clock reading (the model maps Go's sentinel zero time
to 0, and every real reading is after year 1). -/
theorem c1_scenarioA (t0 : Int) (ht : 0 < t0) :
    (run (clkA t0) freshState [evA1, evA2, evA3, evA4]).2 =
      [{ state := .ringing, callID := "A.1", fromE := ⟨"1986", "Martin"⟩,
         toE := ⟨"21", ""⟩, timestamp := t0, ringDuration := 0, cause := "",
         causeDescription := "", causeCode := 0, talkDuration := 0, totalDuration := 0 },
       { state := .answered, callID := "A.1", fromE := ⟨"1986", "Martin"⟩,
         toE := ⟨"21", ""⟩, timestamp := t0 + 5, ringDuration := 5, cause := "",
         causeDescription := "", causeCode := 0, talkDuration := 0, totalDuration := 0 },
       { state := .hungup, callID := "A.1", fromE := ⟨"1986", "Martin"⟩,
         toE := ⟨"21", ""⟩, timestamp := t0 + 35, ringDuration := 0,
         cause := "normal_clearing",
         causeDescription := "The call was hung up normally by one of the parties",
         causeCode := 16, talkDuration := 30, totalDuration := 35 }] := by
  have h1 : t0 ≠ 0 := by omega
  have h2 : t0 + 5 ≠ 0 := by omega
  simp [run, Process, handleNewchannel, handleNewstate, handleHangup, Event.get,
    Event.type, Event.isResponse, Event.getInt, goAtoi, goAtoiMag, parseUintLoop,
    isDigitChar, cutoff10, maxUint64, HangupCause, evA1, evA2, evA3, evA4, clkA,
    freshState, h1, h2]

/-- C1 witness: the scenario theorem applied at `t0 = 100`. -/
theorem c1_scenarioA_witness :
    (run (clkA 100) freshState [evA1, evA2, evA3, evA4]).2 =
      [{ state := .ringing, callID := "A.1", fromE := ⟨"1986", "Martin"⟩,
         toE := ⟨"21", ""⟩, timestamp := 100, ringDuration := 0, cause := "",
         causeDescription := "", causeCode := 0, talkDuration := 0, totalDuration := 0 },
       { state := .answered, callID := "A.1", fromE := ⟨"1986", "Martin"⟩,
         toE := ⟨"21", ""⟩, timestamp := 105, ringDuration := 5, cause := "",
         causeDescription := "", causeCode := 0, talkDuration := 0, totalDuration := 0 },
       { state := .hungup, callID := "A.1", fromE := ⟨"1986", "Martin"⟩,
         toE := ⟨"21", ""⟩, timestamp := 135, ringDuration := 0,
         cause := "normal_clearing",
         causeDescription := "The call was hung up normally by one of the parties",
         causeCode := 16, talkDuration := 30, totalDuration := 35 }] :=
  c1_scenarioA 100 (by norm_num)

/-- C5.  A termination notification whose per-leg `Uniqueid` differs from its
call id, while a CallRecord for the call id exists, is a no-op: no change is
emitted and the whole correlator state — in particular the CallRecord and
every one of its fields — is untouched. -/
theorem c5_secondary_leg_noop (clk : Nat → Int) (s : CorrState) (evt : Event)
    (L : String) (cs : callState)
    (hresp : evt.isResponse = false) (hlid : evt.get "Linkedid" = L) (hne : L ≠ "")
    (htype : evt.type = "Hangup") (hcs : s.calls L = some cs)
    (huid : evt.get "Uniqueid" ≠ L) :
    Process clk s evt = (s, []) := by
  unfold Process
  rw [hresp, hlid, htype]
  simp only [Bool.false_eq_true, if_false, if_neg hne]
  norm_num
  unfold handleHangup
  rw [hcs]
  simp [huid]

/-- C5 witness: a concrete secondary-leg termination for a tracked call. -/
theorem c5_secondary_leg_noop_witness :
    Process (fun _ => 7)
      { calls := fun k => if k = "A.1" then
          some { linkedID := "A.1", fromE := ⟨"1986", "Martin"⟩, toE := ⟨"21", ""⟩,
                 ringTime := 3, answerTime := 0, answered := false, rung := true,
                 cancelled := false }
          else none,
        ticks := 1 }
      ⟨[⟨"Event", "Hangup"⟩, ⟨"Cause", "16"⟩, ⟨"Uniqueid", "A.2"⟩, ⟨"Linkedid", "A.1"⟩]⟩ =
      ({ calls := fun k => if k = "A.1" then
          some { linkedID := "A.1", fromE := ⟨"1986", "Martin"⟩, toE := ⟨"21", ""⟩,
                 ringTime := 3, answerTime := 0, answered := false, rung := true,
                 cancelled := false }
          else none,
         ticks := 1 }, []) :=
  c5_secondary_leg_noop _ _ _ "A.1"
    { linkedID := "A.1", fromE := ⟨"1986", "Martin"⟩, toE := ⟨"21", ""⟩,
      ringTime := 3, answerTime := 0, answered := false, rung := true, cancelled := false }
    (by decide) (by decide) (by decide) (by decide) rfl (by decide)

lemma len_hnc (s : CorrState) (evt : Event) (L : String) :
    (handleNewchannel s evt L).2.length ≤ 1 := by
  unfold handleNewchannel
  repeat (any_goals (first | split | dsimp only))
  all_goals simp

lemma len_hdb (s : CorrState) (evt : Event) (L : String) :
    (handleDialBegin s evt L).2.length ≤ 1 := by
  unfold handleDialBegin
  repeat (any_goals (first | split | dsimp only))
  all_goals simp

lemma len_hns (clk : Nat → Int) (s : CorrState) (evt : Event) (L : String) :
    (handleNewstate clk s evt L).2.length ≤ 1 := by
  unfold handleNewstate
  repeat (any_goals (first | split | dsimp only))
  all_goals simp

lemma len_hde (s : CorrState) (evt : Event) (L : String) :
    (handleDialEnd s evt L).2.length ≤ 1 := by
  unfold handleDialEnd
  repeat (any_goals (first | split | dsimp only))
  all_goals simp

lemma len_hhu (clk : Nat → Int) (s : CorrState) (evt : Event) (L : String) :
    (handleHangup clk s evt L).2.length ≤ 1 := by
  unfold handleHangup
  repeat (any_goals (first | split | dsimp only))
  all_goals simp

/-- C8.  A single processed record emits at most one lifecycle change. -/
theorem c8_at_most_one_change (clk : Nat → Int) (s : CorrState) (evt : Event) :
    (Process clk s evt).2.length ≤ 1 := by
  unfold Process
  repeat (any_goals (first | split | dsimp only))
  all_goals first
    | simp
    | exact len_hnc ..
    | exact len_hdb ..
    | exact len_hns ..
    | exact len_hde ..
    | exact len_hhu ..

/-- C2.  At primary-leg finalization the emitted HungUp change always carries
the raw numeric cause code taken from the record; its cause name and
description are the fixed `cancelled` pair when the cancelled flag is set and
the answered flag is unset, and otherwise — in particular whenever the call
was answered, regardless of the cancelled flag — the Cause Translator lookup
of the numeric code. -/
theorem c2_cause_resolution (clk : Nat → Int) (s : CorrState) (evt : Event)
    (L : String) (cs : callState)
    (hresp : evt.isResponse = false) (hlid : evt.get "Linkedid" = L) (hne : L ≠ "")
    (htype : evt.type = "Hangup") (hcs : s.calls L = some cs)
    (huid : evt.get "Uniqueid" = L) :
    ∃ c : CallStateChange, (Process clk s evt).2 = [c] ∧
      c.causeCode = evt.getInt "Cause" ∧
      (cs.cancelled = true → cs.answered = false →
        c.cause = "cancelled" ∧
        c.causeDescription = "The call was cancelled by the caller before being answered") ∧
      ((cs.cancelled = false ∨ cs.answered = true) →
        (c.cause, c.causeDescription) = causeTranslate (evt.getInt "Cause")) := by
  unfold Process
  rw [hresp, hlid, htype]
  simp only [Bool.false_eq_true, if_false, if_neg hne]
  norm_num
  unfold handleHangup
  rw [hcs]
  simp only [huid, ne_eq, not_true_eq_false, if_false]
  refine ⟨_, rfl, rfl, ?_, ?_⟩
  · intro hc ha
    simp [hc, ha]
  · intro hor
    rcases hor with hcf | ha
    · simp [hcf, causeTranslate]
    · simp [ha, causeTranslate]

/-- C2 witness: the cause-resolution theorem applied to a cancelled,
never-answered call terminated with raw cause code 127. -/
theorem c2_cause_resolution_witness :
    ∃ c : CallStateChange, (Process (fun _ => 9) stateC2w evC2w).2 = [c] ∧
      c.causeCode = evC2w.getInt "Cause" ∧
      (true = true → false = false →
        c.cause = "cancelled" ∧
        c.causeDescription = "The call was cancelled by the caller before being answered") ∧
      ((true = false ∨ false = true) →
        (c.cause, c.causeDescription) = causeTranslate (evC2w.getInt "Cause")) :=
  c2_cause_resolution (fun _ => 9) stateC2w evC2w "W.1"
    { linkedID := "W.1", fromE := ⟨"1986", "Martin"⟩, toE := ⟨"21", ""⟩,
      ringTime := 2, answerTime := 0, answered := false, rung := true,
      cancelled := true }
    (by decide) (by decide) (by decide) (by decide) rfl (by decide)

/-- Any header already collected for the record in progress ends up in one of
the emitted records: the pending record is flushed by the next blank line or
at end of stream. -/
lemma mem_parseFrom_of_mem_acc (h : Header) :
    ∀ (lines : List String) (acc : List Header), h ∈ acc →
      ∃ rec ∈ parseFrom acc lines, h ∈ rec := by
  intro lines
  induction lines with
  | nil =>
    intro acc hmem
    refine ⟨acc, ?_, hmem⟩
    unfold parseFrom
    simp [List.isEmpty_eq_false_iff_exists_mem.mpr ⟨h, hmem⟩]
  | cons line rest ih =>
    intro acc hmem
    have hne : acc.isEmpty = false := List.isEmpty_eq_false_iff_exists_mem.mpr ⟨h, hmem⟩
    unfold parseFrom
    by_cases hb : trimCR line = ""
    · simp only [hb, if_pos rfl, hne]
      exact ⟨acc, by simp, hmem⟩
    · simp only [if_neg hb]
      cases hsep : splitSep (trimCR line).data with
      | none =>
        simp only [hne]
        exact ih _ (List.mem_append_left _ hmem)
      | some kv =>
        exact ih _ (List.mem_append_left _ hmem)

/-- C6 (amended).  A non-blank line (after carriage-return stripping) lacking
the `": "` separator is discarded when no pair has been captured for the
record in progress, and otherwise is retained in the eventually-emitted
record as a pair with empty key and the stripped line as value.  (A blank
line instead terminates the record in progress.) -/
theorem c6_amended :
    (∀ (line : String) (rest : List String),
        trimCR line ≠ "" → splitSep (trimCR line).data = none →
        parseFrom [] (line :: rest) = parseFrom [] rest)
    ∧ (∀ (acc : List Header) (line : String) (rest : List String),
        acc ≠ [] → trimCR line ≠ "" → splitSep (trimCR line).data = none →
        ∃ rec ∈ parseFrom acc (line :: rest), (⟨"", trimCR line⟩ : Header) ∈ rec) := by
  constructor
  · intro line rest hnb hsep
    conv_lhs => rw [parseFrom]
    simp [hnb, hsep]
  · intro acc line rest hacc hnb hsep
    have hne : acc.isEmpty = false := by
      cases acc with
      | nil => exact absurd rfl hacc
      | cons a l => rfl
    unfold parseFrom
    simp only [if_neg hnb, hsep, hne]
    exact mem_parseFrom_of_mem_acc _ rest _
      (List.mem_append_right _ (List.mem_singleton.mpr rfl))

/-- C6 witness: the amended theorem applied to the separator-less line
`junk` — discarded as preamble when nothing was captured, retained as an
empty-key pair once a record is in progress. -/
theorem c6_amended_witness :
    parseFrom [] ["junk", "A: B"] = parseFrom [] ["A: B"]
    ∧ ∃ rec ∈ parseFrom [⟨"A", "B"⟩] ["junk"], (⟨"", trimCR "junk"⟩ : Header) ∈ rec :=
  ⟨c6_amended.1 "junk" ["A: B"] (by decide) (by decide),
   c6_amended.2 [⟨"A", "B"⟩] "junk" [] (by decide) (by decide) (by decide)⟩

lemma hnc_calls (s : CorrState) (evt : Event) (L cid : String) :
    ((handleNewchannel s evt L).1.calls cid).isSome =
      (if (s.calls L).isNone && (cid == L) then true else (s.calls cid).isSome) := by
  unfold handleNewchannel
  cases hc : s.calls L with
  | some cs => simp [hc]
  | none =>
    by_cases hid : cid = L
    · simp [hc, hid]
    · simp [hc, hid]

lemma hdb_calls (s : CorrState) (evt : Event) (L cid : String) :
    ((handleDialBegin s evt L).1.calls cid).isSome = (s.calls cid).isSome := by
  unfold handleDialBegin
  cases hc : s.calls L with
  | none => rfl
  | some cs =>
    dsimp only
    by_cases h1 : cs.toE.name = ""
    · by_cases h2 : evt.get "DestCallerIDName" = ""
      · simp [h1, h2]
      · by_cases hid : cid = L <;> simp [h1, h2, hid, hc]
    · simp [h1]

lemma hns_calls (clk : Nat → Int) (s : CorrState) (evt : Event) (L cid : String) :
    ((handleNewstate clk s evt L).1.calls cid).isSome = (s.calls cid).isSome := by
  unfold handleNewstate
  cases hc : s.calls L with
  | none => rfl
  | some cs =>
    dsimp only
    by_cases hr : evt.get "ChannelStateDesc" = "Ringing"
    · by_cases hrg : cs.rung
      · simp [hr, hrg]
      · by_cases hid : cid = L <;> simp [hr, hrg, hid, hc]
    · by_cases hu : evt.get "ChannelStateDesc" = "Up"
      · by_cases ha : cs.answered
        · simp [hr, hu, ha]
        · by_cases hid : cid = L <;> simp [hr, hu, ha, hid, hc]
      · simp [hr, hu]

lemma hde_calls (s : CorrState) (evt : Event) (L cid : String) :
    ((handleDialEnd s evt L).1.calls cid).isSome = (s.calls cid).isSome := by
  unfold handleDialEnd
  cases hc : s.calls L with
  | none => rfl
  | some cs =>
    dsimp only
    by_cases hd : evt.get "DialStatus" = "CANCEL"
    · by_cases hid : cid = L <;> simp [hd, hid, hc]
    · simp [hd]

lemma hhu_calls (clk : Nat → Int) (s : CorrState) (evt : Event) (L cid : String) :
    ((handleHangup clk s evt L).1.calls cid).isSome =
      (if (s.calls L).isSome && (evt.get "Uniqueid" == L) && (cid == L) then false
       else (s.calls cid).isSome) := by
  unfold handleHangup
  cases hc : s.calls L with
  | none => simp [hc]
  | some cs =>
    dsimp only
    by_cases huid : evt.get "Uniqueid" = L
    · by_cases hid : cid = L <;> simp [hc, huid, hid]
    · simp [hc, huid]

/-- C9.  The set of tracked call ids changes only by a creation notification
inserting its (untracked, non-empty) Linkedid and by a primary-leg
termination removing its Linkedid; every other processed record leaves the
tracked set pointwise unchanged. -/
theorem c9_tracked_set (clk : Nat → Int) (s : CorrState) (evt : Event) (cid : String) :
    ((Process clk s evt).1.calls cid).isSome =
      (if isCreating s evt && (cid == evt.get "Linkedid") then true
       else if isPrimaryHangup s evt && (cid == evt.get "Linkedid") then false
       else (s.calls cid).isSome) := by
  unfold Process
  by_cases hr : evt.isResponse = true
  · simp [hr, isCreating, isPrimaryHangup]
  · have hr' : evt.isResponse = false := by simpa using hr
    by_cases hl : evt.get "Linkedid" = ""
    · simp [hr', hl, isCreating, isPrimaryHangup]
    · by_cases h1 : evt.type = "Newchannel"
      · simp only [hr', Bool.false_eq_true, if_false, if_neg hl, if_pos h1]
        rw [hnc_calls]
        simp [isCreating, isPrimaryHangup, hr', hl, h1]
      · by_cases h2 : evt.type = "DialBegin"
        · simp only [hr', Bool.false_eq_true, if_false, if_neg hl, if_neg h1, if_pos h2]
          rw [hdb_calls]
          simp [isCreating, isPrimaryHangup, hr', hl, h1, h2]
        · by_cases h3 : evt.type = "Newstate"
          · simp only [hr', Bool.false_eq_true, if_false, if_neg hl, if_neg h1, if_neg h2,
              if_pos h3]
            rw [hns_calls]
            simp [isCreating, isPrimaryHangup, hr', hl, h1, h2, h3]
          · by_cases h4 : evt.type = "DialEnd"
            · simp only [hr', Bool.false_eq_true, if_false, if_neg hl, if_neg h1, if_neg h2,
                if_neg h3, if_pos h4]
              rw [hde_calls]
              simp [isCreating, isPrimaryHangup, hr', hl, h1, h2, h3, h4]
            · by_cases h5 : evt.type = "Hangup"
              · simp only [hr', Bool.false_eq_true, if_false, if_neg hl, if_neg h1, if_neg h2,
                  if_neg h3, if_neg h4, if_pos h5]
                rw [hhu_calls]
                simp [isCreating, isPrimaryHangup, hr', hl, h1, h2, h3, h4, h5]
              · simp [hr', hl, h1, h2, h3, h4, h5, isCreating, isPrimaryHangup]

/-- C6 counterexample.  A blank line also lacks the `": "` separator, yet
with a record in progress it is not retained as a pair with empty key and
empty value: it terminates the record.  On the lines `A: B`, ``, `C: D` the
reader emits two records and no empty-key pair anywhere, contradicting the
claim as stated for the blank line. -/
theorem c6_counterexample :
    parseFrom [] ["A: B", "", "C: D"] = [[⟨"A", "B"⟩], [⟨"C", "D"⟩]]
    ∧ ((parseFrom [] ["A: B", "", "C: D"]).flatten.contains (⟨"", ""⟩ : Header)) = false := by
  decide

lemma digitsVal_ge (n : Nat) (ds : List Char) : n ≤ digitsVal n ds := by
  induction ds generalizing n with
  | nil => exact le_refl n
  | cons c cs ih =>
    have h1 : digitsVal n (c :: cs) = digitsVal (n * 10 + (c.toNat - 48)) cs := rfl
    have h2 := ih (n * 10 + (c.toNat - 48))
    omega

lemma parseUintLoop_spec :
    ∀ (ds : List Char) (n : Nat), n ≤ maxUint64 → (∀ c ∈ ds, isDigitChar c) →
      parseUintLoop n ds =
        if maxUint64 < digitsVal n ds then .rangeErr else .ok (digitsVal n ds) := by
  intro ds
  induction ds with
  | nil =>
    intro n hn _
    have hv : digitsVal n [] = n := rfl
    unfold parseUintLoop
    rw [hv, if_neg (Nat.not_lt.mpr hn)]
  | cons c cs ih =>
    intro n hn hd
    have hc : isDigitChar c := hd c (List.mem_cons_self c cs)
    have hd' : ∀ x ∈ cs, isDigitChar x := fun x hx => hd x (List.mem_cons_of_mem c hx)
    have hstep : digitsVal n (c :: cs) = digitsVal (n * 10 + (c.toNat - 48)) cs := rfl
    unfold parseUintLoop
    rw [if_pos hc]
    by_cases h1 : cutoff10 ≤ n
    · rw [if_pos h1]
      have hge := digitsVal_ge (n * 10 + (c.toNat - 48)) cs
      have h4 : maxUint64 < cutoff10 * 10 := by decide
      have h5 : cutoff10 * 10 ≤ n * 10 := Nat.mul_le_mul_right _ h1
      rw [if_pos (by omega)]
    · rw [if_neg h1]
      dsimp only
      by_cases h2 : maxUint64 < n * 10 + (c.toNat - 48)
      · rw [if_pos h2]
        have hge := digitsVal_ge (n * 10 + (c.toNat - 48)) cs
        rw [if_pos (by omega)]
      · rw [if_neg h2, hstep]
        exact ih (n * 10 + (c.toNat - 48)) (by omega) hd'

lemma clamp64_pos_big (dv : Nat) (h : maxUint64 < dv) : int64Max = clamp64 (dv : Int) := by
  have h1 : (18446744073709551615 : Nat) < dv := by
    have : maxUint64 = 18446744073709551615 := by decide
    omega
  simp only [clamp64, int64Min, int64Max, max_def, min_def]
  split_ifs <;> [skip; skip; skip; skip] <;> omega

lemma clamp64_pos_spec (dv : Nat) (hdv : dv ≤ maxUint64) :
    (if 2 ^ 63 ≤ dv then int64Max else (dv : Int)) = clamp64 (dv : Int) := by
  have h1 : dv ≤ 18446744073709551615 := by
    have : maxUint64 = 18446744073709551615 := by decide
    omega
  have h2 : (2 : Nat) ^ 63 = 9223372036854775808 := by norm_num
  simp only [clamp64, int64Min, int64Max, max_def, min_def, h2]
  split_ifs <;> first | rfl | omega

lemma clamp64_neg_big (dv : Nat) (h : maxUint64 < dv) : int64Min = clamp64 (-(dv : Int)) := by
  have h1 : (18446744073709551615 : Nat) < dv := by
    have : maxUint64 = 18446744073709551615 := by decide
    omega
  simp only [clamp64, int64Min, int64Max, max_def, min_def]
  split_ifs <;> omega

lemma clamp64_neg_spec (dv : Nat) (hdv : dv ≤ maxUint64) :
    (if 2 ^ 63 < dv then int64Min else -(dv : Int)) = clamp64 (-(dv : Int)) := by
  have h1 : dv ≤ 18446744073709551615 := by
    have : maxUint64 = 18446744073709551615 := by decide
    omega
  have h2 : (2 : Nat) ^ 63 = 9223372036854775808 := by norm_num
  simp only [clamp64, int64Min, int64Max, max_def, min_def, h2]
  split_ifs <;> first | rfl | omega

lemma goAtoiMag_spec (neg : Bool) (r : Char) (rs : List Char)
    (hdig : ∀ c ∈ r :: rs, isDigitChar c) :
    goAtoiMag neg (r :: rs) =
      clamp64 (if neg then -(digitsVal 0 (r :: rs) : Int) else (digitsVal 0 (r :: rs) : Int)) := by
  have hz : (0 : Nat) ≤ maxUint64 := Nat.zero_le _
  have hloop := parseUintLoop_spec (r :: rs) 0 hz hdig
  unfold goAtoiMag
  rw [hloop]
  by_cases hbig : maxUint64 < digitsVal 0 (r :: rs)
  · rw [if_pos hbig]
    cases neg with
    | true => simpa using clamp64_neg_big _ hbig
    | false => simpa using clamp64_pos_big _ hbig
  · rw [if_neg hbig]
    cases neg with
    | true => simpa using clamp64_neg_spec _ (Nat.not_lt.mp hbig)
    | false => simpa using clamp64_pos_spec _ (Nat.not_lt.mp hbig)

lemma goAtoi_eq_clamp_of_syntax (s : String) (h : intSyntaxOK s = true) :
    goAtoi s = clamp64 (intValue s) := by
  unfold intSyntaxOK signSplit at h
  unfold goAtoi intValue signSplit
  cases hd : s.data with
  | nil => rw [hd] at h; simp at h
  | cons c rest =>
    rw [hd] at h
    dsimp only at h ⊢
    by_cases hm : c = '-'
    · rw [if_pos hm] at h ⊢
      simp only [if_pos hm]
      cases rest with
      | nil => simp at h
      | cons r rs =>
        simp only [reduceCtorEq, if_neg (by simp : ¬(r :: rs = []))] at h ⊢
        try dsimp only at h ⊢
        have hdig : ∀ x ∈ r :: rs, isDigitChar x := by
          intro x hx
          have := (List.all_eq_true.mp h) x hx
          exact of_decide_eq_true this
        rw [goAtoiMag_spec true r rs hdig]
        simp
    · rw [if_neg hm] at h ⊢
      simp only [if_neg hm]
      by_cases hp : c = '+'
      · rw [if_pos hp] at h ⊢
        simp only [if_pos hp]
        cases rest with
        | nil => simp at h
        | cons r rs =>
          simp only [reduceCtorEq, if_neg (by simp : ¬(r :: rs = []))] at h ⊢
          try dsimp only at h ⊢
          have hdig : ∀ x ∈ r :: rs, isDigitChar x := by
            intro x hx
            have := (List.all_eq_true.mp h) x hx
            exact of_decide_eq_true this
          rw [goAtoiMag_spec false r rs hdig]
          simp
      · rw [if_neg hp] at h ⊢
        simp only [if_neg hp]
        try dsimp only at h ⊢
        have hdig : ∀ x ∈ c :: rest, isDigitChar x := by
          intro x hx
          have := (List.all_eq_true.mp h) x hx
          exact of_decide_eq_true this
        rw [goAtoiMag_spec false c rest hdig]

lemma get_eq_empty_of_not_hasKey (e : Event) (key : String) (h : hasKey e key = false) :
    e.get key = "" := by
  unfold hasKey at h
  unfold Event.get
  have : e.headers.find? (fun h => h.key == key) = none := by
    rw [List.find?_eq_none]
    intro a ha
    exact (List.any_eq_false.mp h) a ha
  rw [this]

lemma takeWhile_ne_of_all_false (ds : List Char)
    (h : (ds.all fun c => decide (isDigitChar c)) = false) :
    ds.takeWhile (fun c => decide (isDigitChar c)) ≠ ds := by
  intro heq
  have hall : (ds.all fun c => decide (isDigitChar c)) = true := by
    rw [List.all_eq_true]
    intro x hx
    exact List.mem_takeWhile_imp (l := ds) (by rw [heq]; exact hx)
  rw [hall] at h
  exact absurd h (by simp)

lemma parseUintLoop_synErr_spec :
    ∀ (ds : List Char) (n : Nat), n ≤ maxUint64 →
      ds.takeWhile (fun c => decide (isDigitChar c)) ≠ ds →
      digitsVal n (ds.takeWhile (fun c => decide (isDigitChar c))) ≤ maxUint64 →
      parseUintLoop n ds = .synErr := by
  intro ds
  induction ds with
  | nil => intro n _ hne _; exact absurd rfl hne
  | cons c cs ih =>
    intro n hn hne hv
    by_cases hc : isDigitChar c
    · have htw : (c :: cs).takeWhile (fun c => decide (isDigitChar c)) =
          c :: cs.takeWhile (fun c => decide (isDigitChar c)) := by
        simp only [List.takeWhile_cons, decide_eq_true hc, if_true]
      rw [htw] at hne hv
      have hstep : digitsVal n (c :: cs.takeWhile (fun c => decide (isDigitChar c))) =
          digitsVal (n * 10 + (c.toNat - 48)) (cs.takeWhile (fun c => decide (isDigitChar c))) := rfl
      rw [hstep] at hv
      have hge := digitsVal_ge (n * 10 + (c.toNat - 48))
        (cs.takeWhile (fun c => decide (isDigitChar c)))
      have hcut : ¬ cutoff10 ≤ n := by
        intro hcut
        have h4 : maxUint64 < cutoff10 * 10 := by decide
        have h5 : cutoff10 * 10 ≤ n * 10 := Nat.mul_le_mul_right _ hcut
        omega
      unfold parseUintLoop
      rw [if_pos hc, if_neg hcut]
      dsimp only
      rw [if_neg (by omega : ¬ maxUint64 < n * 10 + (c.toNat - 48))]
      exact ih _ (by omega) (fun hh => hne (by rw [hh])) hv
    · unfold parseUintLoop
      rw [if_neg hc]

lemma parseUintLoop_rangeErr_spec :
    ∀ (ds : List Char) (n : Nat), n ≤ maxUint64 →
      maxUint64 < digitsVal n (ds.takeWhile (fun c => decide (isDigitChar c))) →
      parseUintLoop n ds = .rangeErr := by
  intro ds
  induction ds with
  | nil =>
    intro n hn hv
    have hz : digitsVal n (([] : List Char).takeWhile (fun c => decide (isDigitChar c))) = n := rfl
    omega
  | cons c cs ih =>
    intro n hn hv
    by_cases hc : isDigitChar c
    · have htw : (c :: cs).takeWhile (fun c => decide (isDigitChar c)) =
          c :: cs.takeWhile (fun c => decide (isDigitChar c)) := by
        simp only [List.takeWhile_cons, decide_eq_true hc, if_true]
      rw [htw] at hv
      have hstep : digitsVal n (c :: cs.takeWhile (fun c => decide (isDigitChar c))) =
          digitsVal (n * 10 + (c.toNat - 48)) (cs.takeWhile (fun c => decide (isDigitChar c))) := rfl
      rw [hstep] at hv
      unfold parseUintLoop
      rw [if_pos hc]
      by_cases hcut : cutoff10 ≤ n
      · rw [if_pos hcut]
      · rw [if_neg hcut]
        dsimp only
        by_cases h2 : maxUint64 < n * 10 + (c.toNat - 48)
        · rw [if_pos h2]
        · rw [if_neg h2]
          exact ih _ (by omega) hv
    · exfalso
      have htw : (c :: cs).takeWhile (fun c => decide (isDigitChar c)) = [] := by
        simp only [List.takeWhile_cons, decide_eq_false hc, Bool.false_eq_true, if_false]
      rw [htw] at hv
      have hz : digitsVal n ([] : List Char) = n := rfl
      omega

lemma goAtoiMag_invalid (neg : Bool) (r : Char) (rs : List Char) :
    ((r :: rs).takeWhile (fun c => decide (isDigitChar c)) ≠ r :: rs →
      digitsVal 0 ((r :: rs).takeWhile (fun c => decide (isDigitChar c))) ≤ maxUint64 →
      goAtoiMag neg (r :: rs) = 0)
    ∧ (maxUint64 < digitsVal 0 ((r :: rs).takeWhile (fun c => decide (isDigitChar c))) →
      goAtoiMag neg (r :: rs) = if neg then int64Min else int64Max) := by
  constructor
  · intro hne hv
    have hloop := parseUintLoop_synErr_spec (r :: rs) 0 (Nat.zero_le _) hne hv
    unfold goAtoiMag
    rw [hloop]
  · intro hv
    have hloop := parseUintLoop_rangeErr_spec (r :: rs) 0 (Nat.zero_le _) hv
    unfold goAtoiMag
    rw [hloop]

lemma goAtoi_signSplit_none (s : String) (h : signSplit s = none) : goAtoi s = 0 := by
  unfold signSplit at h
  unfold goAtoi
  cases hd : s.data with
  | nil => rfl
  | cons c rest =>
    rw [hd] at h
    dsimp only at h ⊢
    by_cases hm : c = '-'
    · rw [if_pos hm] at h ⊢
      cases rest with
      | nil => rfl
      | cons r rs => simp at h
    · rw [if_neg hm] at h ⊢
      by_cases hp : c = '+'
      · rw [if_pos hp] at h ⊢
        cases rest with
        | nil => rfl
        | cons r rs => simp at h
      · rw [if_neg hp] at h
        simp at h

lemma goAtoi_invalid_spec (s : String) (neg : Bool) (ds : List Char)
    (hsp : signSplit s = some (neg, ds)) :
    (ds.takeWhile (fun c => decide (isDigitChar c)) ≠ ds →
      digitsVal 0 (ds.takeWhile (fun c => decide (isDigitChar c))) ≤ maxUint64 →
      goAtoi s = 0)
    ∧ (maxUint64 < digitsVal 0 (ds.takeWhile (fun c => decide (isDigitChar c))) →
      goAtoi s = if neg then int64Min else int64Max) := by
  unfold signSplit at hsp
  unfold goAtoi
  cases hd : s.data with
  | nil => rw [hd] at hsp; simp at hsp
  | cons c rest =>
    rw [hd] at hsp
    dsimp only at hsp ⊢
    by_cases hm : c = '-'
    · rw [if_pos hm] at hsp ⊢
      cases rest with
      | nil => simp at hsp
      | cons r rs =>
        simp only [reduceCtorEq, if_false] at hsp
        rw [Option.some.injEq, Prod.mk.injEq] at hsp
        obtain ⟨hneg, hds⟩ := hsp
        subst hneg
        subst hds
        exact goAtoiMag_invalid true r rs
    · rw [if_neg hm] at hsp ⊢
      by_cases hp : c = '+'
      · rw [if_pos hp] at hsp ⊢
        cases rest with
        | nil => simp at hsp
        | cons r rs =>
          simp only [reduceCtorEq, if_false] at hsp
          rw [Option.some.injEq, Prod.mk.injEq] at hsp
          obtain ⟨hneg, hds⟩ := hsp
          subst hneg
          subst hds
          exact goAtoiMag_invalid false r rs
      · rw [if_neg hp] at hsp ⊢
        rw [Option.some.injEq, Prod.mk.injEq] at hsp
        obtain ⟨hneg, hds⟩ := hsp
        subst hneg
        subst hds
        exact goAtoiMag_invalid false c rest

/-- C7 (amended).  `getInt` is total (the embedding is a function); it
returns 0 whenever the key is absent, whenever the value is empty or a bare
sign, and whenever the left-to-right scan of the value meets a non-digit
before its leading digits have exceeded the unsigned 64-bit range; a value
whose leading digit run overflows that range — syntactically valid or not —
yields the saturated signed 64-bit bound of its sign instead of 0; and a
syntactically valid numeric value is returned saturated to the signed
64-bit range. -/
theorem c7_amended (evt : Event) (key : String) :
    (hasKey evt key = false → evt.getInt key = 0)
    ∧ (intSyntaxOK (evt.get key) = true →
        evt.getInt key = clamp64 (intValue (evt.get key)))
    ∧ (signSplit (evt.get key) = none → evt.getInt key = 0)
    ∧ (∀ (neg : Bool) (ds : List Char),
        signSplit (evt.get key) = some (neg, ds) →
        (ds.all fun c => decide (isDigitChar c)) = false →
        (digitsVal 0 (ds.takeWhile fun c => decide (isDigitChar c)) ≤ maxUint64 →
          evt.getInt key = 0)
        ∧ (maxUint64 < digitsVal 0 (ds.takeWhile fun c => decide (isDigitChar c)) →
          evt.getInt key = if neg then int64Min else int64Max)) := by
  refine ⟨?_, ?_, ?_, ?_⟩
  · intro hf
    unfold Event.getInt
    rw [get_eq_empty_of_not_hasKey evt key hf]
    decide
  · intro h
    exact goAtoi_eq_clamp_of_syntax _ h
  · intro h
    exact goAtoi_signSplit_none _ h
  · intro neg ds hsp hbad
    have hspec := goAtoi_invalid_spec (evt.get key) neg ds hsp
    have hne := takeWhile_ne_of_all_false ds hbad
    exact ⟨fun hv => hspec.1 hne hv, hspec.2⟩

/-- C7 witness: the amended theorem applied to an absent key, a small valid
value, a bare sign, a value whose scan meets a non-digit below the overflow
bound, and a value whose leading digits already overflow. -/
theorem c7_amended_witness :
    ((Event.mk [⟨"X", "5"⟩]).getInt "Cause" = 0)
    ∧ ((Event.mk [⟨"Cause", "123"⟩]).getInt "Cause" =
        clamp64 (intValue ((Event.mk [⟨"Cause", "123"⟩]).get "Cause")))
    ∧ ((Event.mk [⟨"Cause", "+"⟩]).getInt "Cause" = 0)
    ∧ ((Event.mk [⟨"Cause", "12a"⟩]).getInt "Cause" = 0)
    ∧ ((Event.mk [⟨"Cause", "99999999999999999999x"⟩]).getInt "Cause" =
        if false then int64Min else int64Max) :=
  ⟨(c7_amended (Event.mk [⟨"X", "5"⟩]) "Cause").1 (by decide),
   (c7_amended (Event.mk [⟨"Cause", "123"⟩]) "Cause").2.1 (by decide),
   (c7_amended (Event.mk [⟨"Cause", "+"⟩]) "Cause").2.2.1 (by decide),
   ((c7_amended (Event.mk [⟨"Cause", "12a"⟩]) "Cause").2.2.2 false
      ['1', '2', 'a'] (by decide) (by decide)).1 (by decide),
   ((c7_amended (Event.mk [⟨"Cause", "99999999999999999999x"⟩]) "Cause").2.2.2 false
      ("99999999999999999999x".data) (by decide) (by decide)).2 (by decide)⟩

/-- C7 counterexample.  The value `99999999999999999999` is syntactically
numeric but exceeds the 64-bit integer range; `getInt` returns the saturated
maximum 9223372036854775807, not 0 as the claim states (Go's `Atoi` reports
the clamped value alongside the range error that `GetInt` discards). -/
theorem c7_counterexample :
    (Event.mk [⟨"Cause", "99999999999999999999"⟩]).getInt "Cause" = int64Max
    ∧ int64Max ≠ 0 := by
  decide

@[simp] lemma countState_nil (st : CallSt) (L : String) : countState st L [] = 0 := rfl

@[simp] lemma countState_cons (st : CallSt) (L : String) (c : CallStateChange)
    (out : List CallStateChange) :
    countState st L (c :: out) =
      countState st L out + (if c.state = st ∧ c.callID = L then 1 else 0) := by
  unfold countState
  rw [List.countP_cons]
  congr 1
  by_cases h : c.state = st ∧ c.callID = L <;> simp [h]

/-! Dispatch equations for `Process`, used by the step lemmas. -/

lemma Process_response (clk : Nat → Int) (s : CorrState) (evt : Event)
    (h : evt.isResponse = true) : Process clk s evt = (s, []) := by
  unfold Process; rw [h]; simp

lemma Process_noLinked (clk : Nat → Int) (s : CorrState) (evt : Event)
    (h1 : evt.isResponse = false) (h2 : evt.get "Linkedid" = "") :
    Process clk s evt = (s, []) := by
  unfold Process; rw [h1, h2]; simp

lemma Process_newchannel (clk : Nat → Int) (s : CorrState) (evt : Event)
    (h1 : evt.isResponse = false) (h2 : evt.get "Linkedid" ≠ "")
    (h3 : evt.type = "Newchannel") :
    Process clk s evt = handleNewchannel s evt (evt.get "Linkedid") := by
  unfold Process; rw [h1, h3]; simp [h2]

lemma Process_dialbegin (clk : Nat → Int) (s : CorrState) (evt : Event)
    (h1 : evt.isResponse = false) (h2 : evt.get "Linkedid" ≠ "")
    (h3 : evt.type = "DialBegin") :
    Process clk s evt = handleDialBegin s evt (evt.get "Linkedid") := by
  unfold Process; rw [h1, h3]; simp [h2]

lemma Process_newstate (clk : Nat → Int) (s : CorrState) (evt : Event)
    (h1 : evt.isResponse = false) (h2 : evt.get "Linkedid" ≠ "")
    (h3 : evt.type = "Newstate") :
    Process clk s evt = handleNewstate clk s evt (evt.get "Linkedid") := by
  unfold Process; rw [h1, h3]; simp [h2]

lemma Process_dialend (clk : Nat → Int) (s : CorrState) (evt : Event)
    (h1 : evt.isResponse = false) (h2 : evt.get "Linkedid" ≠ "")
    (h3 : evt.type = "DialEnd") :
    Process clk s evt = handleDialEnd s evt (evt.get "Linkedid") := by
  unfold Process; rw [h1, h3]; simp [h2]

lemma Process_hangup (clk : Nat → Int) (s : CorrState) (evt : Event)
    (h1 : evt.isResponse = false) (h2 : evt.get "Linkedid" ≠ "")
    (h3 : evt.type = "Hangup") :
    Process clk s evt = handleHangup clk s evt (evt.get "Linkedid") := by
  unfold Process; rw [h1, h3]; simp [h2]

lemma Process_other (clk : Nat → Int) (s : CorrState) (evt : Event)
    (h1 : evt.isResponse = false) (h2 : evt.get "Linkedid" ≠ "")
    (h3 : evt.type ≠ "Newchannel") (h4 : evt.type ≠ "DialBegin")
    (h5 : evt.type ≠ "Newstate") (h6 : evt.type ≠ "DialEnd")
    (h7 : evt.type ≠ "Hangup") :
    Process clk s evt = (s, []) := by
  unfold Process; rw [h1]; simp [h2, h3, h4, h5, h6, h7]

/-! Per-handler facts about emissions and the duplicate-suppression
potentials. -/

lemma hnc_out (s : CorrState) (evt : Event) (L : String) :
    (handleNewchannel s evt L).2 = [] := by
  unfold handleNewchannel
  cases s.calls L <;> rfl

lemma hdb_out (s : CorrState) (evt : Event) (L : String) :
    (handleDialBegin s evt L).2 = [] := by
  unfold handleDialBegin
  repeat (any_goals (first | split | dsimp only))
  all_goals rfl

lemma hde_out (s : CorrState) (evt : Event) (L : String) :
    (handleDialEnd s evt L).2 = [] := by
  unfold handleDialEnd
  repeat (any_goals (first | split | dsimp only))
  all_goals rfl

lemma hnc_ring_pot (s : CorrState) (evt : Event) (L2 L : String) :
    ringPotential (handleNewchannel s evt L2).1 L = ringPotential s L := by
  unfold handleNewchannel ringPotential
  cases hc : s.calls L2 with
  | some cs => rfl
  | none =>
    dsimp only
    by_cases hid : L = L2
    · subst hid; simp [hc]
    · simp [hid]

lemma hnc_ans_pot (s : CorrState) (evt : Event) (L2 L : String) :
    answerPotential (handleNewchannel s evt L2).1 L = answerPotential s L := by
  unfold handleNewchannel answerPotential
  cases hc : s.calls L2 with
  | some cs => rfl
  | none =>
    dsimp only
    by_cases hid : L = L2
    · subst hid; simp [hc]
    · simp [hid]

lemma hdb_ring_pot (s : CorrState) (evt : Event) (L2 L : String) :
    ringPotential (handleDialBegin s evt L2).1 L = ringPotential s L := by
  unfold handleDialBegin ringPotential
  cases hc : s.calls L2 with
  | none => rfl
  | some cs =>
    dsimp only
    by_cases h1 : cs.toE.name = ""
    · by_cases h2 : evt.get "DestCallerIDName" = ""
      · simp [h1, h2]
      · by_cases hid : L = L2
        · subst hid; simp [h1, h2, hc]
        · simp [h1, h2, hid]
    · simp [h1]

lemma hdb_ans_pot (s : CorrState) (evt : Event) (L2 L : String) :
    answerPotential (handleDialBegin s evt L2).1 L = answerPotential s L := by
  unfold handleDialBegin answerPotential
  cases hc : s.calls L2 with
  | none => rfl
  | some cs =>
    dsimp only
    by_cases h1 : cs.toE.name = ""
    · by_cases h2 : evt.get "DestCallerIDName" = ""
      · simp [h1, h2]
      · by_cases hid : L = L2
        · subst hid; simp [h1, h2, hc]
        · simp [h1, h2, hid]
    · simp [h1]

lemma hde_ring_pot (s : CorrState) (evt : Event) (L2 L : String) :
    ringPotential (handleDialEnd s evt L2).1 L = ringPotential s L := by
  unfold handleDialEnd ringPotential
  cases hc : s.calls L2 with
  | none => rfl
  | some cs =>
    dsimp only
    by_cases h1 : evt.get "DialStatus" = "CANCEL"
    · by_cases hid : L = L2
      · subst hid; simp [h1, hc]
      · simp [h1, hid]
    · simp [h1]

lemma hde_ans_pot (s : CorrState) (evt : Event) (L2 L : String) :
    answerPotential (handleDialEnd s evt L2).1 L = answerPotential s L := by
  unfold handleDialEnd answerPotential
  cases hc : s.calls L2 with
  | none => rfl
  | some cs =>
    dsimp only
    by_cases h1 : evt.get "DialStatus" = "CANCEL"
    · by_cases hid : L = L2
      · subst hid; simp [h1, hc]
      · simp [h1, hid]
    · simp [h1]

lemma hangPot_eq (s : CorrState) (L : String) :
    hangPotential s L = if (s.calls L).isSome then 1 else 0 := by
  unfold hangPotential
  cases s.calls L <;> simp

lemma hns_ring_step (clk : Nat → Int) (s : CorrState) (evt : Event) (L2 L : String) :
    countState .ringing L (handleNewstate clk s evt L2).2
      + ringPotential (handleNewstate clk s evt L2).1 L
    ≤ ringPotential s L + countState .hungup L (handleNewstate clk s evt L2).2 := by
  unfold handleNewstate
  cases hc : s.calls L2 with
  | none => simp
  | some cs =>
    dsimp only
    by_cases hrd : evt.get "ChannelStateDesc" = "Ringing"
    · rw [if_pos hrd]
      by_cases hrg : cs.rung
      · simp [hrg, ringPotential]
      · simp only [hrg, Bool.false_eq_true, if_false]
        by_cases hid : L = L2
        · subst hid
          simp [ringPotential, hc, hrg]
        · have hid2 : L2 ≠ L := fun hh => hid hh.symm
          simp [ringPotential, hid, hid2]
    · rw [if_neg hrd]
      by_cases hup : evt.get "ChannelStateDesc" = "Up"
      · rw [if_pos hup]
        by_cases ha : cs.answered
        · simp [ha, ringPotential]
        · simp only [ha, Bool.false_eq_true, if_false]
          by_cases hid : L = L2
          · subst hid
            simp [ringPotential, hc]
          · simp [ringPotential, hid]
      · simp [hup, ringPotential]

lemma hns_ans_step (clk : Nat → Int) (s : CorrState) (evt : Event) (L2 L : String) :
    countState .answered L (handleNewstate clk s evt L2).2
      + answerPotential (handleNewstate clk s evt L2).1 L
    ≤ answerPotential s L + countState .hungup L (handleNewstate clk s evt L2).2 := by
  unfold handleNewstate
  cases hc : s.calls L2 with
  | none => simp
  | some cs =>
    dsimp only
    by_cases hrd : evt.get "ChannelStateDesc" = "Ringing"
    · rw [if_pos hrd]
      by_cases hrg : cs.rung
      · simp [hrg, answerPotential]
      · simp only [hrg, Bool.false_eq_true, if_false]
        by_cases hid : L = L2
        · subst hid
          simp [answerPotential, hc]
        · simp [answerPotential, hid]
    · rw [if_neg hrd]
      by_cases hup : evt.get "ChannelStateDesc" = "Up"
      · rw [if_pos hup]
        by_cases ha : cs.answered
        · simp [ha, answerPotential]
        · simp only [ha, Bool.false_eq_true, if_false]
          by_cases hid : L = L2
          · subst hid
            simp [answerPotential, hc, ha]
          · have hid2 : L2 ≠ L := fun hh => hid hh.symm
            simp [answerPotential, hid, hid2]
      · simp [hup, answerPotential]

lemma hhu_ring_step (clk : Nat → Int) (s : CorrState) (evt : Event) (L2 L : String) :
    countState .ringing L (handleHangup clk s evt L2).2
      + ringPotential (handleHangup clk s evt L2).1 L
    ≤ ringPotential s L + countState .hungup L (handleHangup clk s evt L2).2 := by
  unfold handleHangup
  cases hc : s.calls L2 with
  | none => simp
  | some cs =>
    dsimp only
    by_cases huid : evt.get "Uniqueid" = L2
    · simp only [huid, ne_eq, not_true_eq_false, if_false]
      by_cases hid : L = L2
      · subst hid
        simp [ringPotential, hc]
      · have hid2 : L2 ≠ L := fun hh => hid hh.symm
        simp [ringPotential, hid, hid2]
    · simp [huid]

lemma hhu_ans_step (clk : Nat → Int) (s : CorrState) (evt : Event) (L2 L : String) :
    countState .answered L (handleHangup clk s evt L2).2
      + answerPotential (handleHangup clk s evt L2).1 L
    ≤ answerPotential s L + countState .hungup L (handleHangup clk s evt L2).2 := by
  unfold handleHangup
  cases hc : s.calls L2 with
  | none => simp
  | some cs =>
    dsimp only
    by_cases huid : evt.get "Uniqueid" = L2
    · simp only [huid, ne_eq, not_true_eq_false, if_false]
      by_cases hid : L = L2
      · subst hid
        simp [answerPotential, hc]
      · have hid2 : L2 ≠ L := fun hh => hid hh.symm
        simp [answerPotential, hid, hid2]
    · simp [huid]

lemma hhu_hang_step (clk : Nat → Int) (s : CorrState) (evt : Event) (L2 L : String) :
    countState .hungup L (handleHangup clk s evt L2).2
      + hangPotential (handleHangup clk s evt L2).1 L
    ≤ hangPotential s L := by
  unfold handleHangup
  cases hc : s.calls L2 with
  | none => simp
  | some cs =>
    dsimp only
    by_cases huid : evt.get "Uniqueid" = L2
    · simp only [huid, ne_eq, not_true_eq_false, if_false]
      by_cases hid : L = L2
      · subst hid
        simp [hangPotential, hc]
      · have hid2 : L2 ≠ L := fun hh => hid hh.symm
        simp [hangPotential, hid, hid2]
    · simp [huid]

lemma hnc_hang_step (s : CorrState) (evt : Event) (L2 L : String) :
    hangPotential (handleNewchannel s evt L2).1 L
    ≤ hangPotential s L + (if L = L2 then 1 else 0) := by
  unfold handleNewchannel hangPotential
  cases hc : s.calls L2 with
  | some cs => simp
  | none =>
    dsimp only
    by_cases hid : L = L2
    · subst hid; simp [hc]
    · simp [hid]

/-! `Process`-level step inequalities. -/

lemma step_ring (clk : Nat → Int) (s : CorrState) (evt : Event) (L : String) :
    countState .ringing L (Process clk s evt).2
      + ringPotential (Process clk s evt).1 L
    ≤ ringPotential s L + countState .hungup L (Process clk s evt).2 := by
  by_cases hr : evt.isResponse = true
  · rw [Process_response clk s evt hr]; simp
  · have hr2 : evt.isResponse = false := by simpa using hr
    by_cases hl : evt.get "Linkedid" = ""
    · rw [Process_noLinked clk s evt hr2 hl]; simp
    · by_cases h1 : evt.type = "Newchannel"
      · rw [Process_newchannel clk s evt hr2 hl h1, hnc_out, hnc_ring_pot]
        simp
      · by_cases h2 : evt.type = "DialBegin"
        · rw [Process_dialbegin clk s evt hr2 hl h2, hdb_out, hdb_ring_pot]
          simp
        · by_cases h3 : evt.type = "Newstate"
          · rw [Process_newstate clk s evt hr2 hl h3]
            exact hns_ring_step clk s evt _ L
          · by_cases h4 : evt.type = "DialEnd"
            · rw [Process_dialend clk s evt hr2 hl h4, hde_out, hde_ring_pot]
              simp
            · by_cases h5 : evt.type = "Hangup"
              · rw [Process_hangup clk s evt hr2 hl h5]
                exact hhu_ring_step clk s evt _ L
              · rw [Process_other clk s evt hr2 hl h1 h2 h3 h4 h5]
                simp

lemma step_ans (clk : Nat → Int) (s : CorrState) (evt : Event) (L : String) :
    countState .answered L (Process clk s evt).2
      + answerPotential (Process clk s evt).1 L
    ≤ answerPotential s L + countState .hungup L (Process clk s evt).2 := by
  by_cases hr : evt.isResponse = true
  · rw [Process_response clk s evt hr]; simp
  · have hr2 : evt.isResponse = false := by simpa using hr
    by_cases hl : evt.get "Linkedid" = ""
    · rw [Process_noLinked clk s evt hr2 hl]; simp
    · by_cases h1 : evt.type = "Newchannel"
      · rw [Process_newchannel clk s evt hr2 hl h1, hnc_out, hnc_ans_pot]
        simp
      · by_cases h2 : evt.type = "DialBegin"
        · rw [Process_dialbegin clk s evt hr2 hl h2, hdb_out, hdb_ans_pot]
          simp
        · by_cases h3 : evt.type = "Newstate"
          · rw [Process_newstate clk s evt hr2 hl h3]
            exact hns_ans_step clk s evt _ L
          · by_cases h4 : evt.type = "DialEnd"
            · rw [Process_dialend clk s evt hr2 hl h4, hde_out, hde_ans_pot]
              simp
            · by_cases h5 : evt.type = "Hangup"
              · rw [Process_hangup clk s evt hr2 hl h5]
                exact hhu_ans_step clk s evt _ L
              · rw [Process_other clk s evt hr2 hl h1 h2 h3 h4 h5]
                simp

lemma step_hang (clk : Nat → Int) (s : CorrState) (evt : Event) (L : String) :
    countState .hungup L (Process clk s evt).2
      + hangPotential (Process clk s evt).1 L
    ≤ hangPotential s L + (if isCreationFor L evt then 1 else 0) := by
  by_cases hr : evt.isResponse = true
  · rw [Process_response clk s evt hr]; simp
  · have hr2 : evt.isResponse = false := by simpa using hr
    by_cases hl : evt.get "Linkedid" = ""
    · rw [Process_noLinked clk s evt hr2 hl]; simp
    · by_cases h1 : evt.type = "Newchannel"
      · rw [Process_newchannel clk s evt hr2 hl h1, hnc_out]
        simp only [countState, List.countP_nil, Nat.zero_add]
        by_cases hid : L = evt.get "Linkedid"
        · have hLne : ¬ L = "" := by rw [hid]; exact hl
          have hcr : isCreationFor L evt = true := by
            unfold isCreationFor
            simp [hr2, hid.symm, hl, h1, hLne]
          rw [hcr]
          refine le_trans (hnc_hang_step s evt _ L) ?_
          simp [hid]
        · have := hnc_hang_step s evt (evt.get "Linkedid") L
          rw [if_neg hid] at this
          omega
      · by_cases h2 : evt.type = "DialBegin"
        · rw [Process_dialbegin clk s evt hr2 hl h2, hdb_out]
          simp only [countState_nil, Nat.zero_add]
          rw [hangPot_eq, hangPot_eq, hdb_calls]
          omega
        · by_cases h3 : evt.type = "Newstate"
          · rw [Process_newstate clk s evt hr2 hl h3]
            have h := hangPot_eq (handleNewstate clk s evt (evt.get "Linkedid")).1 L
            rw [hns_calls] at h
            have hout : countState .hungup L (handleNewstate clk s evt (evt.get "Linkedid")).2 = 0 := by
              unfold handleNewstate
              repeat (any_goals (first | split | dsimp only))
              all_goals simp
            rw [hout, h, hangPot_eq]
            omega
          · by_cases h4 : evt.type = "DialEnd"
            · rw [Process_dialend clk s evt hr2 hl h4, hde_out]
              simp only [countState_nil, Nat.zero_add]
              rw [hangPot_eq, hangPot_eq, hde_calls]
              omega
            · by_cases h5 : evt.type = "Hangup"
              · rw [Process_hangup clk s evt hr2 hl h5]
                refine le_trans (hhu_hang_step clk s evt _ L) ?_
                omega
              · rw [Process_other clk s evt hr2 hl h1 h2 h3 h4 h5]
                simp

/-! Run-level inequalities by induction along the event list. -/

lemma countState_append (st : CallSt) (L : String) (xs ys : List CallStateChange) :
    countState st L (xs ++ ys) = countState st L xs + countState st L ys := by
  unfold countState
  simp [List.countP_append]

lemma run_cons (clk : Nat → Int) (s : CorrState) (e : Event) (es : List Event) :
    run clk s (e :: es) =
      ((run clk (Process clk s e).1 es).1,
        (Process clk s e).2 ++ (run clk (Process clk s e).1 es).2) := rfl

lemma run_ring (clk : Nat → Int) :
    ∀ (es : List Event) (s : CorrState) (L : String),
      countState .ringing L (run clk s es).2 + ringPotential (run clk s es).1 L
        ≤ ringPotential s L + countState .hungup L (run clk s es).2 := by
  intro es
  induction es with
  | nil => intro s L; simp [run]
  | cons e es ih =>
    intro s L
    rw [run_cons]
    simp only [countState_append]
    have h1 := step_ring clk s e L
    have h2 := ih (Process clk s e).1 L
    omega

lemma run_ans (clk : Nat → Int) :
    ∀ (es : List Event) (s : CorrState) (L : String),
      countState .answered L (run clk s es).2 + answerPotential (run clk s es).1 L
        ≤ answerPotential s L + countState .hungup L (run clk s es).2 := by
  intro es
  induction es with
  | nil => intro s L; simp [run]
  | cons e es ih =>
    intro s L
    rw [run_cons]
    simp only [countState_append]
    have h1 := step_ans clk s e L
    have h2 := ih (Process clk s e).1 L
    omega

lemma run_hang (clk : Nat → Int) :
    ∀ (es : List Event) (s : CorrState) (L : String),
      countState .hungup L (run clk s es).2 + hangPotential (run clk s es).1 L
        ≤ hangPotential s L + countCreations L es := by
  intro es
  induction es with
  | nil => intro s L; simp [run, countCreations]
  | cons e es ih =>
    intro s L
    rw [run_cons]
    simp only [countState_append]
    have h1 := step_hang clk s e L
    have h2 := ih (Process clk s e).1 L
    have h3 : countCreations L (e :: es) =
        (if isCreationFor L e then 1 else 0) + countCreations L es := by
      unfold countCreations
      rw [List.countP_cons]
      omega
    rw [h3]
    omega

/-- C4 (amended).  Per CallRecord lifetime, duplicates are suppressed: for
every start state, event list and call id, the number of Ringing (resp.
Answered) changes emitted for that id exceeds the number of HungUp changes
for it by at most the one still-pending emission its flag allows, and the
number of HungUp changes is bounded by the creation notifications for the
id plus the one live record.  In particular, from a fresh correlator, at
most one Ringing, one Answered and one HungUp are emitted per record
lifetime — but a call id reused after finalization starts a new lifetime,
so the bound over a whole input sequence is per lifetime, not one per id. -/
theorem c4_amended (clk : Nat → Int) (es : List Event) (s : CorrState) (L : String) :
    (countState .ringing L (run clk s es).2 + ringPotential (run clk s es).1 L
        ≤ ringPotential s L + countState .hungup L (run clk s es).2)
    ∧ (countState .answered L (run clk s es).2 + answerPotential (run clk s es).1 L
        ≤ answerPotential s L + countState .hungup L (run clk s es).2)
    ∧ (countState .hungup L (run clk s es).2 + hangPotential (run clk s es).1 L
        ≤ hangPotential s L + countCreations L es) :=
  ⟨run_ring clk es s L, run_ans clk es s L, run_hang clk es s L⟩

/-- C4 counterexample.  After a full lifecycle for call id `R.1` the id is
reused; the second lifecycle emits a second Ringing change for the same call
id, so "at most one Ringing per call id over the whole sequence" fails. -/
theorem c4_counterexample :
    countState .ringing "R.1"
        (run (fun _ => 1) freshState [evRe1, evRe2, evRe3, evRe1, evRe2]).2 = 2
    ∧ ¬ (countState .ringing "R.1"
        (run (fun _ => 1) freshState [evRe1, evRe2, evRe3, evRe1, evRe2]).2 ≤ 1) := by
  decide

/-! Machinery for C3: while no Answered change has been emitted for a call
id, the tracked record's answered flag stays clear, and every HungUp emitted
for it carries a zero talk duration. -/

lemma hnc_clear (s : CorrState) (evt : Event) (L2 L : String)
    (h : answeredFlagClear s L) :
    answeredFlagClear (handleNewchannel s evt L2).1 L := by
  intro cs2 hcs2
  unfold handleNewchannel at hcs2
  cases hc : s.calls L2 with
  | some cs => rw [hc] at hcs2; exact h cs2 hcs2
  | none =>
    rw [hc] at hcs2
    dsimp only at hcs2
    by_cases hid : L = L2
    · rw [if_pos hid] at hcs2
      injection hcs2 with h2
      rw [← h2]
    · rw [if_neg hid] at hcs2
      exact h cs2 hcs2

lemma hdb_clear (s : CorrState) (evt : Event) (L2 L : String)
    (h : answeredFlagClear s L) :
    answeredFlagClear (handleDialBegin s evt L2).1 L := by
  intro cs2 hcs2
  unfold handleDialBegin at hcs2
  cases hc : s.calls L2 with
  | none => rw [hc] at hcs2; exact h cs2 hcs2
  | some cs =>
    rw [hc] at hcs2
    dsimp only at hcs2
    by_cases h1 : cs.toE.name = ""
    · rw [if_pos h1] at hcs2
      by_cases h2 : evt.get "DestCallerIDName" = ""
      · simp only [h2, reduceCtorEq, ne_eq, not_true_eq_false, if_false] at hcs2
        exact h cs2 hcs2
      · simp only [ne_eq, h2, not_false_eq_true, if_true] at hcs2
        by_cases hid : L = L2
        · rw [if_pos hid] at hcs2
          injection hcs2 with h3
          have h4 := h cs (hid ▸ hc)
          rw [← h3]
          exact h4
        · rw [if_neg hid] at hcs2
          exact h cs2 hcs2
    · rw [if_neg h1] at hcs2
      exact h cs2 hcs2

lemma hde_clear (s : CorrState) (evt : Event) (L2 L : String)
    (h : answeredFlagClear s L) :
    answeredFlagClear (handleDialEnd s evt L2).1 L := by
  intro cs2 hcs2
  unfold handleDialEnd at hcs2
  cases hc : s.calls L2 with
  | none => rw [hc] at hcs2; exact h cs2 hcs2
  | some cs =>
    rw [hc] at hcs2
    dsimp only at hcs2
    by_cases h1 : evt.get "DialStatus" = "CANCEL"
    · rw [if_pos h1] at hcs2
      dsimp only at hcs2
      by_cases hid : L = L2
      · rw [if_pos hid] at hcs2
        injection hcs2 with h3
        have h4 := h cs (hid ▸ hc)
        rw [← h3]
        exact h4
      · rw [if_neg hid] at hcs2
        exact h cs2 hcs2
    · rw [if_neg h1] at hcs2
      exact h cs2 hcs2

lemma hns_clear_step (clk : Nat → Int) (s : CorrState) (evt : Event) (L2 L : String)
    (hclear : answeredFlagClear s L) :
    countState .answered L (handleNewstate clk s evt L2).2 ≠ 0
    ∨ (answeredFlagClear (handleNewstate clk s evt L2).1 L
        ∧ ∀ c ∈ (handleNewstate clk s evt L2).2, c.callID = L → c.talkDuration = 0) := by
  unfold handleNewstate
  cases hc : s.calls L2 with
  | none => exact Or.inr ⟨hclear, by simp⟩
  | some cs =>
    dsimp only
    by_cases hrd : evt.get "ChannelStateDesc" = "Ringing"
    · rw [if_pos hrd]
      by_cases hrg : cs.rung
      · simp only [hrg, if_true]
        exact Or.inr ⟨hclear, by simp⟩
      · simp only [hrg, Bool.false_eq_true, if_false]
        refine Or.inr ⟨?_, by simp⟩
        intro cs2 hcs2
        dsimp only at hcs2
        by_cases hid : L = L2
        · rw [if_pos hid] at hcs2
          injection hcs2 with h3
          have h4 := hclear cs (hid ▸ hc)
          rw [← h3]
          exact h4
        · rw [if_neg hid] at hcs2
          exact hclear cs2 hcs2
    · rw [if_neg hrd]
      by_cases hup : evt.get "ChannelStateDesc" = "Up"
      · rw [if_pos hup]
        by_cases ha : cs.answered
        · simp only [ha, if_true]
          exact Or.inr ⟨hclear, by simp⟩
        · simp only [ha, Bool.false_eq_true, if_false]
          by_cases hid : L = L2
          · refine Or.inl ?_
            subst hid
            simp
          · refine Or.inr ⟨?_, ?_⟩
            · intro cs2 hcs2
              dsimp only at hcs2
              rw [if_neg hid] at hcs2
              exact hclear cs2 hcs2
            · intro c hcmem hcid
              simp only [List.mem_singleton] at hcmem
              subst hcmem
              simp only at hcid
              exact absurd hcid.symm hid
      · rw [if_neg hup]
        exact Or.inr ⟨hclear, by simp⟩

lemma hhu_clear_step (clk : Nat → Int) (s : CorrState) (evt : Event) (L2 L : String)
    (hclear : answeredFlagClear s L) :
    answeredFlagClear (handleHangup clk s evt L2).1 L
      ∧ ∀ c ∈ (handleHangup clk s evt L2).2, c.callID = L → c.talkDuration = 0 := by
  unfold handleHangup
  cases hc : s.calls L2 with
  | none => exact ⟨hclear, by simp⟩
  | some cs =>
    dsimp only
    by_cases huid : evt.get "Uniqueid" = L2
    · simp only [huid, ne_eq, not_true_eq_false, if_false]
      constructor
      · intro cs2 hcs2
        dsimp only at hcs2
        by_cases hid : L = L2
        · rw [if_pos hid] at hcs2
          exact absurd hcs2 (by simp)
        · rw [if_neg hid] at hcs2
          exact hclear cs2 hcs2
      · intro c hcmem hcid
        simp only [List.mem_singleton] at hcmem
        subst hcmem
        simp only at hcid
        subst hcid
        have ha := hclear cs hc
        simp [ha]
    · simp only [huid, ne_eq, not_false_eq_true, if_true]
      exact ⟨hclear, by simp⟩

lemma step_clear (clk : Nat → Int) (s : CorrState) (evt : Event) (L : String)
    (hclear : answeredFlagClear s L) :
    countState .answered L (Process clk s evt).2 ≠ 0
    ∨ (answeredFlagClear (Process clk s evt).1 L
        ∧ ∀ c ∈ (Process clk s evt).2, c.callID = L → c.talkDuration = 0) := by
  by_cases hr : evt.isResponse = true
  · rw [Process_response clk s evt hr]; exact Or.inr ⟨hclear, by simp⟩
  · have hr2 : evt.isResponse = false := by simpa using hr
    by_cases hl : evt.get "Linkedid" = ""
    · rw [Process_noLinked clk s evt hr2 hl]; exact Or.inr ⟨hclear, by simp⟩
    · by_cases h1 : evt.type = "Newchannel"
      · rw [Process_newchannel clk s evt hr2 hl h1, hnc_out]
        exact Or.inr ⟨hnc_clear s evt _ L hclear, by simp⟩
      · by_cases h2 : evt.type = "DialBegin"
        · rw [Process_dialbegin clk s evt hr2 hl h2, hdb_out]
          exact Or.inr ⟨hdb_clear s evt _ L hclear, by simp⟩
        · by_cases h3 : evt.type = "Newstate"
          · rw [Process_newstate clk s evt hr2 hl h3]
            exact hns_clear_step clk s evt _ L hclear
          · by_cases h4 : evt.type = "DialEnd"
            · rw [Process_dialend clk s evt hr2 hl h4, hde_out]
              exact Or.inr ⟨hde_clear s evt _ L hclear, by simp⟩
            · by_cases h5 : evt.type = "Hangup"
              · rw [Process_hangup clk s evt hr2 hl h5]
                exact Or.inr (hhu_clear_step clk s evt _ L hclear)
              · rw [Process_other clk s evt hr2 hl h1 h2 h3 h4 h5]
                exact Or.inr ⟨hclear, by simp⟩

lemma run_clear (clk : Nat → Int) :
    ∀ (es : List Event) (s : CorrState) (L : String),
      answeredFlagClear s L →
      countState .answered L (run clk s es).2 = 0 →
      ∀ c ∈ (run clk s es).2, c.callID = L → c.talkDuration = 0 := by
  intro es
  induction es with
  | nil => intro s L _ _ c hcmem; simp [run] at hcmem
  | cons e es ih =>
    intro s L hclear hcnt c hcmem hcid
    rw [run_cons] at hcnt hcmem
    simp only [countState_append] at hcnt
    have hcnt1 : countState .answered L (Process clk s e).2 = 0 := by omega
    have hcnt2 : countState .answered L (run clk (Process clk s e).1 es).2 = 0 := by omega
    rcases step_clear clk s e L hclear with hbad | ⟨hclear2, hout1⟩
    · exact absurd hcnt1 hbad
    · simp only [List.mem_append] at hcmem
      rcases hcmem with hm1 | hm2
      · exact hout1 c hm1 hcid
      · exact ih (Process clk s e).1 L hclear2 hcnt2 c hm2 hcid

/-- C3 (amended).  `talk_duration` is 0 whenever no Answered change was ever
emitted for the call id, and `total_duration ≥ talk_duration` whenever the
ring timestamp is set, is no later than the answer timestamp, and is no
later than the hangup clock reading — in particular whenever ringing was
witnessed before the answer under a non-decreasing time source.  A call
answered without a witnessed ringing instead reports `total_duration = 0`,
which can be smaller than its positive `talk_duration`. -/
theorem c3_amended :
    (∀ (clk : Nat → Int) (es : List Event) (L : String),
        countState .answered L (run clk freshState es).2 = 0 →
        ∀ c ∈ (run clk freshState es).2, c.callID = L → c.talkDuration = 0)
    ∧ (∀ (clk : Nat → Int) (s : CorrState) (evt : Event) (L : String) (cs : callState),
        evt.isResponse = false → evt.get "Linkedid" = L → L ≠ "" →
        evt.type = "Hangup" → s.calls L = some cs → evt.get "Uniqueid" = L →
        ∃ c : CallStateChange, (Process clk s evt).2 = [c] ∧
          (cs.answered = false → c.talkDuration = 0) ∧
          (cs.ringTime = 0 → c.totalDuration = 0) ∧
          (cs.ringTime ≠ 0 → cs.ringTime ≤ cs.answerTime → cs.ringTime ≤ clk s.ticks →
            c.talkDuration ≤ c.totalDuration)) := by
  constructor
  · intro clk es L
    exact run_clear clk es freshState L (fun cs2 hcs2 => by
      simp [freshState] at hcs2)
  · intro clk s evt L cs hresp hlid hne htype hcs huid
    unfold Process
    rw [hresp, hlid, htype]
    simp only [Bool.false_eq_true, if_false, if_neg hne]
    norm_num
    unfold handleHangup
    rw [hcs]
    simp only [huid, ne_eq, not_true_eq_false, if_false]
    refine ⟨_, rfl, ?_, ?_, ?_⟩
    · intro ha
      simp [ha]
    · intro hr0
      simp [hr0]
    · intro hr0 hra hrn
      by_cases ha : cs.answered
      · by_cases hat : cs.answerTime = 0
        · simp only [ha, hat, ne_eq, not_true_eq_false, and_false, if_false, hr0,
            not_false_eq_true, if_true]
          omega
        · simp only [ha, hat, ne_eq, not_false_eq_true, and_true, true_and, if_true, hr0,
            if_false]
          omega
      · simp only [ha, Bool.false_eq_true, false_and, if_false, hr0, ne_eq,
          not_false_eq_true, if_true]
        omega

/-- C3 witness: the amended theorem applied to (i) the ringing-only run for
`R.1`, whose HungUp reports a zero talk duration, and (ii) a concrete
primary-leg finalization whose record never rang. -/
theorem c3_amended_witness :
    (((run (fun k => (k : Int) + 1) freshState [evRe1, evRe2, evRe3]).2.getD 1 dummyChange).talkDuration = 0)
    ∧ (∃ c : CallStateChange, (Process (fun _ => 9) stateC2w evC2w).2 = [c] ∧
        (false = false → c.talkDuration = 0) ∧
        ((2 : Int) = 0 → c.totalDuration = 0) ∧
        ((2 : Int) ≠ 0 → (2 : Int) ≤ 0 → (2 : Int) ≤ 9 →
          c.talkDuration ≤ c.totalDuration)) :=
  ⟨c3_amended.1 (fun k => (k : Int) + 1) [evRe1, evRe2, evRe3] "R.1" (by decide)
      ((run (fun k => (k : Int) + 1) freshState [evRe1, evRe2, evRe3]).2.getD 1 dummyChange)
      (by rw [List.getD_eq_getElem _ _ (by decide)]; exact List.getElem_mem _) (by decide),
   c3_amended.2 (fun _ => 9) stateC2w evC2w "W.1"
      { linkedID := "W.1", fromE := ⟨"1986", "Martin"⟩, toE := ⟨"21", ""⟩,
        ringTime := 2, answerTime := 0, answered := false, rung := true,
        cancelled := true }
      (by decide) (by decide) (by decide) (by decide) rfl (by decide)⟩

/-- C3 counterexample.  With the strictly increasing clock `k + 1`, a call
answered without a witnessed ringing notification and then terminated on its
primary leg reports `talk_duration = 1` and `total_duration = 0`: the
claimed inequality `total ≥ talk` fails in exactly the case the claim
includes. -/
theorem c3_counterexample :
    (((run (fun k => (k : Int) + 1) freshState [evRe1, evReUp, evRe3]).2.getD 1 dummyChange).state = .hungup)
    ∧ (((run (fun k => (k : Int) + 1) freshState [evRe1, evReUp, evRe3]).2.getD 1 dummyChange).talkDuration = 1)
    ∧ (((run (fun k => (k : Int) + 1) freshState [evRe1, evReUp, evRe3]).2.getD 1 dummyChange).totalDuration = 0)
    ∧ ¬ (((run (fun k => (k : Int) + 1) freshState [evRe1, evReUp, evRe3]).2.getD 1 dummyChange).totalDuration
          ≥ ((run (fun k => (k : Int) + 1) freshState [evRe1, evReUp, evRe3]).2.getD 1 dummyChange).talkDuration) := by
  decide

end AsteriskMqtt
